import Mathlib

/-!
Shallow embedding of the fitness-studio REST backend (`src/index.js`).

Each Express route handler is modelled as a pure Lean function from the
current database state (`Store`) and the request data to a pair of an HTTP
status code (plus, where a claim needs it, the response payload) and the
resulting database state.  MongoDB collections are lists of documents in
natural (insertion) order; `insertOne` appends, `deleteOne`/`updateOne`
act on the first document matching the filter, `find().sort(...)` is a
stable sort.  Request bodies are JSON values (`JVal`); `new Date()` is a
caller-supplied `Nat` timestamp; ObjectIds are modelled as 24-character
lowercase hexadecimal strings, and `new ObjectId(s)` as a validity check
that throws (propagated as a 500 response) on any other string.
-/

/-- JSON-ish JavaScript values as they appear in request bodies and
stored documents.  `undef` stands for an absent field / `undefined`;
`nan` is the not-a-number result of a failed numeric coercion. -/
inductive JVal where
  | undef : JVal
  | null : JVal
  | bool : Bool → JVal
  | num : Int → JVal
  | nan : JVal
  | str : String → JVal
  | arr : List JVal → JVal
  | obj : List (String × JVal) → JVal
deriving Repr

mutual

/-- Structural equality of JSON values, modelling MongoDB value
equality as used in query filters and the strict `===` operator on the
value shapes the routes compare. -/
def JVal.beq : JVal → JVal → Bool
  | .undef, .undef => true
  | .null, .null => true
  | .bool a, .bool b => a == b
  | .num a, .num b => a == b
  | .nan, .nan => true
  | .str a, .str b => a == b
  | .arr xs, .arr ys => JVal.beqL xs ys
  | .obj fs, .obj gs => JVal.beqO fs gs
  | _, _ => false

/-- Elementwise equality of JSON arrays. -/
def JVal.beqL : List JVal → List JVal → Bool
  | [], [] => true
  | x :: xs, y :: ys => JVal.beq x y && JVal.beqL xs ys
  | _, _ => false

/-- Fieldwise equality of JSON objects (field order significant, as in
BSON documents). -/
def JVal.beqO : List (String × JVal) → List (String × JVal) → Bool
  | [], [] => true
  | (k, x) :: xs, (m, y) :: ys => k == m && JVal.beq x y && JVal.beqO xs ys
  | _, _ => false

end

instance : BEq JVal := ⟨JVal.beq⟩

/-- JavaScript truthiness: `undefined`, `null`, `false`, `0`, `NaN` and
the empty string are falsy; every other value (including empty arrays
and empty objects) is truthy. -/
def JVal.truthy : JVal → Bool
  | .undef => false
  | .null => false
  | .bool b => b
  | .num n => n != 0
  | .nan => false
  | .str s => s != ""
  | .arr _ => true
  | .obj _ => true

/-- The JavaScript `a || b` operator: `a` when truthy, else `b`. -/
def jsOr (a b : JVal) : JVal := if a.truthy then a else b

/-- `Array.isArray`. -/
def JVal.isArr : JVal → Bool
  | .arr _ => true
  | _ => false

/-- The JavaScript `Number(v)` coercion, restricted to the integral
values the embedding supports: numbers pass through, `null` and the
empty (or all-blank) string give `0`, booleans give `0`/`1`, decimal
integer strings parse, and everything else is `NaN`. -/
def jsNumber : JVal → JVal
  | .num n => .num n
  | .nan => .nan
  | .null => .num 0
  | .bool b => .num (if b then 1 else 0)
  | .undef => .nan
  | .str s =>
      let t := s.trim
      if t = "" then .num 0
      else match t.toInt? with
        | some n => .num n
        | none => .nan
  | .arr _ => .nan
  | .obj _ => .nan

/-- Mongo `$inc` by one: increments a numeric field, creates an absent
field with value `1`, propagates `NaN`, and fails (`none`, surfacing as
a thrown driver error) on non-numeric values. -/
def jsInc : JVal → Option JVal
  | .num n => some (.num (n + 1))
  | .nan => some .nan
  | .undef => some (.num 1)
  | _ => none

/-- Mongo `$push`: appends to an array field, creates an absent field as
a one-element array, and fails on non-array values. -/
def jsPush (field v : JVal) : Option JVal :=
  match field with
  | .arr xs => some (.arr (xs ++ [v]))
  | .undef => some (.arr [v])
  | _ => none

/-- Mongo `$pull` of one exact value: removes every array element equal
to `v`; an absent field is left absent; fails on non-array values. -/
def jsPull (field v : JVal) : Option JVal :=
  match field with
  | .arr xs => some (.arr (xs.filter (fun x => !(x == v))))
  | .undef => some .undef
  | _ => none

/-- A valid ObjectId string: exactly 24 lowercase hexadecimal
characters.  `new ObjectId(s)` throws on anything else. -/
def isValidOid (s : String) : Bool :=
  s.length == 24 && s.toList.all (fun c => c.isDigit || ('a' ≤ c && c ≤ 'f'))

/-- Document of the `users` collection.  Registration inserts the
request body with a `role` added; arbitrary extra body fields live in
`rest`. -/
structure UserDoc where
  oid : String
  email : JVal := .undef
  role : JVal := .undef
  rest : List (String × JVal) := []
deriving Repr

/-- Document of the shared `trainers` collection, serving both pending
applications and active trainers, discriminated by `status`. -/
structure TrainerDoc where
  oid : String
  name : JVal := .undef
  email : JVal := .undef
  age : JVal := .undef
  image : JVal := .undef
  experience : JVal := .undef
  details : JVal := .undef
  expertise : JVal := .undef
  availableDays : JVal := .undef
  availableSlots : JVal := .undef
  socials : JVal := .undef
  status : JVal := .undef
  feedback : JVal := .undef
  createdAt : Nat := 0
deriving Repr

/-- Document of the `classes` collection. -/
structure ClassDoc where
  oid : String
  name : JVal := .undef
  image : JVal := .undef
  details : JVal := .undef
  totalBookings : JVal := .undef
  createdAt : Nat := 0
deriving Repr

/-- Document of the `forum` collection.  Posts are inserted verbatim
from the request body, so the vote counters may be absent (`undef`);
other body fields live in `rest`. -/
structure ForumPost where
  oid : String
  upvotes : JVal := .undef
  downvotes : JVal := .undef
  createdAt : Nat := 0
  rest : List (String × JVal) := []
deriving Repr

/-- Document of the `reviews` collection. -/
structure ReviewDoc where
  oid : String
  trainerId : JVal := .undef
  createdAt : Nat := 0
  rest : List (String × JVal) := []
deriving Repr

/-- Document of the `bookings` collection. -/
structure BookingDoc where
  oid : String
  userEmail : JVal := .undef
  trainerId : JVal := .undef
  status : JVal := .undef
  createdAt : Nat := 0
  rest : List (String × JVal) := []
deriving Repr

/-- Document of the `testimonials` collection. -/
structure TestimonialDoc where
  oid : String
  name : JVal := .undef
  review : JVal := .undef
  createdAt : Nat := 0
  rest : List (String × JVal) := []
deriving Repr

/-- Document of the `subscriber` collection. -/
structure SubscriberDoc where
  oid : String
  name : JVal := .undef
  email : JVal := .undef
  createdAt : Nat := 0
deriving Repr

/-- The whole database (`fitnessDB`): one list per collection, in
natural insertion order. -/
structure Store where
  users : List UserDoc := []
  trainers : List TrainerDoc := []
  classes : List ClassDoc := []
  forum : List ForumPost := []
  reviews : List ReviewDoc := []
  bookings : List BookingDoc := []
  testimonials : List TestimonialDoc := []
  subscribers : List SubscriberDoc := []
deriving Repr

/-- The empty database. -/
def emptyStore : Store := {}

/-- `updateOne`-style list update: rewrite the first element matching
the filter, leave everything else unchanged. -/
def updateFirst (p : α → Bool) (f : α → α) : List α → List α
  | [] => []
  | x :: xs => if p x then f x :: xs else x :: updateFirst p f xs

/-- `deleteOne`-style list removal: drop the first element matching the
filter. -/
def removeFirst (p : α → Bool) : List α → List α
  | [] => []
  | x :: xs => if p x then xs else x :: removeFirst p xs

/-- Mongo `.sort({key: -1})`: stable descending sort by a numeric
key. -/
def sortByKeyDesc (key : α → Nat) (l : List α) : List α :=
  l.insertionSort (fun a b => key b ≤ key a)

/-- `Math.ceil(a / b)` on the natural counts and positive limits the
routes use. -/
def ceilDivN (a b : Nat) : Nat := (a + b - 1) / b

/-- Whether `pat` occurs as a contiguous run inside `l`. -/
def listHasRun (pat : List Char) : List Char → Bool
  | [] => pat.isEmpty
  | c :: cs => pat.isPrefixOf (c :: cs) || listHasRun pat cs

/-- Model of the case-insensitive `$regex` name filter for the literal
search strings the claims exercise: case-insensitive substring test,
matching only string-valued fields. -/
def strContainsCI (pat : String) (v : JVal) : Bool :=
  match v with
  | .str t => listHasRun pat.toLower.toList t.toLower.toList
  | _ => false

/-- `new ObjectId(v)` applied to a request-body value: succeeds exactly
on valid ObjectId strings, throws otherwise. -/
def parseOidOfJVal : JVal → Option String
  | .str t => if isValidOid t then some t else none
  | _ => none

/-- `xs.map f` for a throwing `f`: the first failure aborts the whole
request (`none`). -/
def mapOptAll (f : α → Option β) : List α → Option (List β)
  | [] => some []
  | x :: xs =>
      match f x, mapOptAll f xs with
      | some y, some ys => some (y :: ys)
      | _, _ => none

/-- Request body of `POST /users`. -/
structure UserBody where
  email : JVal := .undef
  role : JVal := .undef
  rest : List (String × JVal) := []

/-- The document `POST /users` inserts for a fresh email: the body with
`role = "member"` forced. -/
def regUserDoc (body : UserBody) (freshId : String) : UserDoc :=
  {oid := freshId, email := body.email, role := .str "member", rest := body.rest}

/-- `POST /users`: 400 without an email; if a user with that email
exists, optionally backfill `role = "member"` and answer 200 with the
existing document; otherwise insert the body with `role = "member"` and
answer 201. -/
def registerUser (s : Store) (body : UserBody) (freshId : String) :
    Nat × Option UserDoc × Store :=
  if !body.email.truthy then (400, none, s)
  else
    match s.users.find? (fun d => d.email == body.email) with
    | some u =>
        if !u.role.truthy then
          (200, some {u with role := .str "member"},
            {s with users := (updateFirst (fun d => d.email == body.email)
              (fun d => {d with role := .str "member"}) s.users)})
        else (200, some u, s)
    | none =>
        (201, none, {s with users := s.users ++ [regUserDoc body freshId]})

/-- `GET /users`: every user document, natural order. -/
def getUsers (s : Store) : List UserDoc := s.users

/-- Request body of `POST /testimonials`. -/
structure TestimonialBody where
  name : JVal := .undef
  review : JVal := .undef
  rest : List (String × JVal) := []

/-- The document `POST /testimonials` inserts: the body stamped with
`createdAt`. -/
def testimonialDocOf (b : TestimonialBody) (now : Nat) (fid : String) : TestimonialDoc :=
  {oid := fid, name := b.name, review := b.review, createdAt := now, rest := b.rest}

/-- `POST /testimonials`: 400 unless `name` and `review` are truthy,
else stamp `createdAt` and insert, answering 201. -/
def createTestimonial (s : Store) (b : TestimonialBody) (now : Nat) (fid : String) :
    Nat × Store :=
  if !b.name.truthy || !b.review.truthy then (400, s)
  else (201, {s with testimonials := s.testimonials ++ [testimonialDocOf b now fid]})

/-- `GET /testimonials`: all testimonials, newest first. -/
def listTestimonials (s : Store) : List TestimonialDoc :=
  sortByKeyDesc (·.createdAt) s.testimonials

/-- Request body of `POST /classes`. -/
structure ClassBody where
  name : JVal := .undef
  image : JVal := .undef
  details : JVal := .undef
deriving Repr

/-- The document `POST /classes` inserts: the body stamped with
`createdAt` and a zero `totalBookings` counter. -/
def classDocOf (b : ClassBody) (now : Nat) (fid : String) : ClassDoc :=
  {oid := fid, name := b.name, image := b.image, details := b.details,
    totalBookings := .num 0, createdAt := now}

/-- `POST /classes`: 400 unless `name`, `image` and `details` are
truthy, else stamp `createdAt`, zero `totalBookings`, insert, 201. -/
def createClass (s : Store) (b : ClassBody) (now : Nat) (fid : String) : Nat × Store :=
  if !b.name.truthy || !b.image.truthy || !b.details.truthy then (400, s)
  else (201, {s with classes := s.classes ++ [classDocOf b now fid]})

/-- Response shape of `GET /classes`. -/
structure ClassesPage where
  data : List ClassDoc
  currentPage : Nat
  totalPages : Nat
  totalClasses : Nat

/-- `GET /classes` after query-string parsing: `page` and `limit`
arrive as positive integers (`parseInt(...) || 1` and `|| 6`), `search`
as a string defaulting to `""`, which disables the name filter.  Counts
the matching documents, then returns the `skip = (page-1)*limit`,
`take = limit` window of the matches sorted newest-first, together with
`currentPage`, `totalPages = ceil(total/limit)` and the total. -/
def getClassesCore (s : Store) (page limit : Nat) (search : String) : ClassesPage :=
  let skip := (page - 1) * limit
  let q : ClassDoc → Bool := fun c => if search = "" then true else strContainsCI search c.name
  let matched := s.classes.filter q
  let totalClasses := matched.length
  { data := ((sortByKeyDesc (·.createdAt) matched).drop skip).take limit,
    currentPage := page,
    totalPages := ceilDivN totalClasses limit,
    totalClasses := totalClasses }

/-- Request body of `POST /trainers/apply` (final version with field
normalisation). -/
structure ApplyBody where
  name : JVal := .undef
  email : JVal := .undef
  age : JVal := .undef
  image : JVal := .undef
  experience : JVal := .undef
  details : JVal := .undef
  expertise : JVal := .undef
  availableDays : JVal := .undef
  availableSlots : JVal := .undef
  socials : JVal := .undef
  status : JVal := .undef
deriving Repr

/-- The socials object `POST /trainers/apply` substitutes for a falsy
`socials` field. -/
def defaultSocials : JVal :=
  .obj [("facebook", .str ""), ("instagram", .str ""), ("linkedin", .str "")]

/-- The normalised document `POST /trainers/apply` inserts: numeric
coercion of `age`/`experience`, array defaults for the list fields,
socials/status fallbacks, and a server timestamp. -/
def appliedDoc (b : ApplyBody) (now : Nat) (fid : String) : TrainerDoc :=
  { oid := fid, name := b.name, email := b.email,
    age := jsNumber b.age, image := b.image,
    experience := jsNumber b.experience,
    details := jsOr b.details (.str ""),
    expertise := if b.expertise.isArr then b.expertise else .arr [],
    availableDays := if b.availableDays.isArr then b.availableDays else .arr [],
    availableSlots := if b.availableSlots.isArr then b.availableSlots else .arr [],
    socials := jsOr b.socials defaultSocials,
    status := jsOr b.status (.str "pending"),
    feedback := .undef, createdAt := now }

/-- `POST /trainers/apply`: normalises the payload (numeric coercion of
`age`/`experience`, array defaults, socials/status fallbacks), stamps
`createdAt`, inserts into the shared trainers collection and answers a
plain 200 success. -/
def applyTrainer (s : Store) (b : ApplyBody) (now : Nat) (fid : String) : Nat × Store :=
  (200, {s with trainers := s.trainers ++ [appliedDoc b now fid]})

/-- `GET /trainers`: all documents of the shared collection, newest
first. -/
def listTrainers (s : Store) : List TrainerDoc :=
  sortByKeyDesc (·.createdAt) s.trainers

/-- `GET /trainers/applications/pending`: the pending-list filter. -/
def pendingApplications (s : Store) : List TrainerDoc :=
  s.trainers.filter (fun d => d.status == JVal.str "pending")

/-- The document `PATCH /trainers/applications/:id/confirm` inserts for
an applicant `a`: the carried-over fields with `|| []` / `|| {}`
fallbacks, `status = "approved"` and a fresh timestamp. -/
def approvedDoc (a : TrainerDoc) (now : Nat) (fid : String) : TrainerDoc :=
  { oid := fid, name := a.name, email := a.email, age := a.age,
    image := a.image, experience := a.experience, details := a.details,
    expertise := jsOr a.expertise (.arr []),
    availableDays := jsOr a.availableDays (.arr []),
    availableSlots := jsOr a.availableSlots (.arr []),
    socials := jsOr a.socials (.obj []),
    status := .str "approved", feedback := .undef, createdAt := now }

/-- `PATCH /trainers/applications/:id/confirm`: look up the applicant
by id (500 on a malformed id, 404 when absent), insert the fresh
`approved` document, then delete the original by id. -/
def confirmApplication (s : Store) (id : String) (now : Nat) (fid : String) :
    Nat × Store :=
  if !(isValidOid id) then (500, s)
  else
    match s.trainers.find? (fun d => d.oid == id) with
    | none => (404, s)
    | some a =>
        (200, {s with trainers :=
          (removeFirst (fun e => e.oid == id) (s.trainers ++ [approvedDoc a now fid]))})

/-- `PATCH /trainers/applications/:id/reject`: `updateOne` setting
`status = "rejected"` and a defaulted `feedback`; answers 404 when the
update modified nothing (no match, or values already identical). -/
def rejectApplication (s : Store) (id : String) (feedback : JVal) : Nat × Store :=
  if !(isValidOid id) then (500, s)
  else
    let fb := jsOr feedback (.str "No feedback provided")
    match s.trainers.find? (fun d => d.oid == id) with
    | none => (404, s)
    | some a =>
        if a.status == JVal.str "rejected" && a.feedback == fb then (404, s)
        else (200, {s with trainers := (updateFirst (fun d => d.oid == id)
          (fun d => {d with status := .str "rejected", feedback := fb}) s.trainers)})

/-- `GET /trainers/email/:email`: single lookup, 404 when absent. -/
def trainerByEmail (s : Store) (email : String) : Nat × Option TrainerDoc :=
  match s.trainers.find? (fun d => d.email == JVal.str email) with
  | none => (404, none)
  | some t => (200, some t)

/-- `GET /trainers/by-email/:email` (duplicate route): always a 200,
serialising the lookup result — `null` when absent. -/
def trainerByEmailDup (s : Store) (email : String) : Nat × Option TrainerDoc :=
  (200, s.trainers.find? (fun d => d.email == JVal.str email))

/-- `PATCH /forum/:id/vote`: a malformed post id throws (500);
otherwise `updateOne` with `$inc` on `upvotes` when `voteType` is
`"up"`, `downvotes` otherwise.  A vanished post still answers success
(zero documents matched); a non-numeric counter makes the update throw
(500). -/
def voteForum (s : Store) (postId : String) (voteType : JVal) : Nat × Store :=
  if !(isValidOid postId) then (500, s)
  else
    match s.forum.find? (fun p => p.oid == postId) with
    | none => (200, s)
    | some p =>
        if voteType == JVal.str "up" then
          match jsInc p.upvotes with
          | none => (500, s)
          | some v => (200, {s with forum := (updateFirst (fun q => q.oid == postId)
              (fun q => {q with upvotes := v}) s.forum)})
        else
          match jsInc p.downvotes with
          | none => (500, s)
          | some v => (200, {s with forum := (updateFirst (fun q => q.oid == postId)
              (fun q => {q with downvotes := v}) s.forum)})

/-- Request body of `POST /forum` (inserted verbatim, no validation,
no server timestamp). -/
structure ForumBody where
  upvotes : JVal := .undef
  downvotes : JVal := .undef
  createdAt : Nat := 0
  rest : List (String × JVal) := []

/-- The document `POST /forum` inserts: the request body verbatim. -/
def forumPostOf (b : ForumBody) (fid : String) : ForumPost :=
  {oid := fid, upvotes := b.upvotes, downvotes := b.downvotes,
    createdAt := b.createdAt, rest := b.rest}

/-- `POST /forum`: insert the body as-is, answer a plain 200 success. -/
def createForum (s : Store) (b : ForumBody) (fid : String) : Nat × Store :=
  (200, {s with forum := s.forum ++ [forumPostOf b fid]})

/-- Response shape of `GET /forum`. -/
structure ForumPage where
  posts : List ForumPost
  totalPages : Nat
  currentPage : Nat

/-- `GET /forum` after query-string parsing: fixed page size 6, skip
`(page-1)*6` over the posts sorted newest-first. -/
def forumPageCore (s : Store) (page : Nat) : ForumPage :=
  let limit := 6
  let skip := (page - 1) * limit
  { posts := ((sortByKeyDesc (·.createdAt) s.forum).drop skip).take limit,
    totalPages := ceilDivN s.forum.length limit,
    currentPage := page }

/-- Request body of `POST /reviews`. -/
structure ReviewBody where
  trainerId : JVal := .undef
  rest : List (String × JVal) := []

/-- The document `POST /reviews` inserts: the body stamped with
`createdAt`. -/
def reviewDocOf (b : ReviewBody) (now : Nat) (fid : String) : ReviewDoc :=
  {oid := fid, trainerId := b.trainerId, createdAt := now, rest := b.rest}

/-- `POST /reviews`: stamp `createdAt`, insert without validation,
answer a plain 200 success. -/
def createReview (s : Store) (b : ReviewBody) (now : Nat) (fid : String) : Nat × Store :=
  (200, {s with reviews := s.reviews ++ [reviewDocOf b now fid]})

/-- `GET /reviews`: all reviews, newest first. -/
def listReviews (s : Store) : List ReviewDoc :=
  sortByKeyDesc (·.createdAt) s.reviews

/-- `GET /reviews/trainer/:trainerId`: reviews whose `trainerId` equals
the path parameter. -/
def reviewsByTrainer (s : Store) (tid : String) : List ReviewDoc :=
  s.reviews.filter (fun r => r.trainerId == JVal.str tid)

/-- The document `POST /newsletter/subscribe` inserts. -/
def subscriberDocOf (name email : JVal) (now : Nat) (fid : String) : SubscriberDoc :=
  {oid := fid, name := name, email := email, createdAt := now}

/-- `POST /newsletter/subscribe`: 400 unless `name` and `email` are
truthy, 409 when the email is already subscribed, else insert with a
timestamp and answer a plain 200 success. -/
def subscribe (s : Store) (name email : JVal) (now : Nat) (fid : String) : Nat × Store :=
  if !name.truthy || !email.truthy then (400, s)
  else
    match s.subscribers.find? (fun d => d.email == email) with
    | some _ => (409, s)
    | none => (200, {s with subscribers := s.subscribers ++
        [subscriberDocOf name email now fid]})

/-- `GET /newsletter/subscribers`: all subscribers, newest first. -/
def listSubscribers (s : Store) : List SubscriberDoc :=
  sortByKeyDesc (·.createdAt) s.subscribers

/-- Request body of `POST /payments`. -/
structure PaymentBody where
  userEmail : JVal := .undef
  trainerId : JVal := .undef
  rest : List (String × JVal) := []

/-- The document `POST /payments` inserts: the spread body with
`status = "success"` forced and a timestamp. -/
def bookingDocOf (b : PaymentBody) (now : Nat) (fid : String) : BookingDoc :=
  {oid := fid, userEmail := b.userEmail, trainerId := b.trainerId,
    status := .str "success", createdAt := now, rest := b.rest}

/-- `POST /payments`: 400 unless `userEmail` and `trainerId` are
truthy, else insert the body with `status = "success"` and a timestamp,
answering 201. -/
def createPayment (s : Store) (b : PaymentBody) (now : Nat) (fid : String) : Nat × Store :=
  if !b.userEmail.truthy || !b.trainerId.truthy then (400, s)
  else (201, {s with bookings := s.bookings ++ [bookingDocOf b now fid]})

/-- `GET /bookings/trainer/:trainerId`: bookings whose `trainerId`
equals the path parameter. -/
def bookingsByTrainer (s : Store) (tid : String) : List BookingDoc :=
  s.bookings.filter (fun b => b.trainerId == JVal.str tid)

/-- One element of the `GET /bookings/user/:email` response: a booking
together with the joined trainer document, `null` when unmatched. -/
structure MergedBooking where
  booking : BookingDoc
  trainerDetails : Option TrainerDoc

/-- The first query of `GET /bookings/user/:email`: the user's
successful bookings, newest first. -/
def userSuccessBookings (s : Store) (email : String) : List BookingDoc :=
  sortByKeyDesc (·.createdAt)
    (s.bookings.filter (fun b =>
      b.userEmail == JVal.str email && b.status == JVal.str "success"))

/-- The in-memory join step of `GET /bookings/user/:email`: spread the
booking and attach the first fetched trainer whose id string-equals the
booking's `trainerId`, or `null`. -/
def mergeBooking (trainers : List TrainerDoc) (b : BookingDoc) : MergedBooking :=
  ⟨b, trainers.find? (fun t => b.trainerId == JVal.str t.oid)⟩

/-- `GET /bookings/user/:email`: the user's successful bookings, newest
first; early `[]` when there are none.  Each booking's `trainerId` is
fed to `new ObjectId` (a malformed one throws, answering 500 with no
payload), the referenced trainers are batch-fetched with `$in`, and the
join matches `t._id.toString() === booking.trainerId` in memory,
yielding `null` details when nothing matches. -/
def bookingsByUser (s : Store) (email : String) : Nat × Option (List MergedBooking) :=
  let bs := userSuccessBookings s email
  if bs.isEmpty then (200, some [])
  else
    match mapOptAll (fun b => parseOidOfJVal b.trainerId) bs with
    | none => (500, none)
    | some tids =>
        (200, some (bs.map
          (mergeBooking (s.trainers.filter (fun t => tids.contains t.oid)))))

/-- `PATCH /trainers/:id/add-slot`: `$push` the body onto
`availableSlots`; 500 on a malformed id or a non-array slot field, 404
when the update modified nothing, else success. -/
def addSlotPatch (s : Store) (id : String) (body : JVal) : Nat × Store :=
  if !(isValidOid id) then (500, s)
  else
    match s.trainers.find? (fun d => d.oid == id) with
    | none => (404, s)
    | some d =>
        match jsPush d.availableSlots body with
        | none => (500, s)
        | some v => (200, {s with trainers := (updateFirst (fun e => e.oid == id)
            (fun e => {e with availableSlots := v}) s.trainers)})

/-- `POST /trainers/:id/slots`: the same `$push`, but the response is a
success whether or not anything matched. -/
def addSlotPost (s : Store) (id : String) (body : JVal) : Nat × Store :=
  if !(isValidOid id) then (500, s)
  else
    match s.trainers.find? (fun d => d.oid == id) with
    | none => (200, s)
    | some d =>
        match jsPush d.availableSlots body with
        | none => (500, s)
        | some v => (200, {s with trainers := (updateFirst (fun e => e.oid == id)
            (fun e => {e with availableSlots := v}) s.trainers)})

/-- A user document without a `role` field, for concrete runs. -/
def w5user : UserDoc := {oid := "aaaaaaaaaaaaaaaaaaaaaaaa", email := .str "x@y.z"}

/-- A store holding only `w5user`. -/
def w5store : Store := {users := [w5user]}

/-- A registration body re-using `w5user`'s email. -/
def w5body : UserBody := {email := .str "x@y.z"}

/-- A fully-populated pending trainer application, for concrete runs. -/
def c1app : TrainerDoc :=
  { oid := "cccccccccccccccccccccccc", name := .str "Ann", email := .str "ann@x.y",
    age := .num 30, image := .str "img", experience := .num 3, details := .str "d",
    expertise := .arr [.str "yoga"], availableDays := .arr [.str "Mon"],
    availableSlots := .arr [], socials := .obj [("facebook", .str "")],
    status := .str "pending", createdAt := 1 }

/-- A store holding only the pending application `c1app`. -/
def c1store : Store := {trainers := [c1app]}

/-- A trainer with one existing availability slot, for concrete runs. -/
def c10doc : TrainerDoc :=
  { oid := "eeeeeeeeeeeeeeeeeeeeeeee", name := .str "Bob",
    availableSlots := .arr [.str "Mon 9-10"], status := .str "approved" }

/-- A store holding only `c10doc`. -/
def c10store : Store := {trainers := [c10doc]}

/-- Numeric reading of a vote counter: a stored number, with an absent
counter counting as zero. -/
def upCount : JVal → Int
  | .num n => n
  | _ => 0

/-- The shape of a post after `n` up-votes: untouched for `n = 0`, else
the original with its up-vote counter at `upCount + n` and every other
field unchanged. -/
def votedPost (p : ForumPost) (n : Nat) : ForumPost :=
  if n = 0 then p else {p with upvotes := .num (upCount p.upvotes + n)}

/-- `n` repeated `PATCH /forum/:id/vote` up-vote requests, threading the
store. -/
def voteUpN (pid : String) (n : Nat) (s : Store) : Store :=
  (fun t => (voteForum t pid (JVal.str "up")).2)^[n] s

/-- A forum post with numeric counters, for concrete runs. -/
def c8post : ForumPost :=
  { oid := "ffffffffffffffffffffffff", upvotes := .num 2, downvotes := .num 5,
    createdAt := 3, rest := [("title", .str "hello")] }

/-- A store holding only `c8post`. -/
def c8store : Store := {forum := [c8post]}

/-- An application body with no socials and a caller-supplied status,
for concrete runs. -/
def c2body : ApplyBody :=
  { name := .str "Cy", email := .str "c@d.e", age := .num 20, image := .str "i",
    experience := .num 1, status := .str "approved" }

/-- A successful booking referencing a malformed trainer id. -/
def c6badBooking : BookingDoc :=
  { oid := "aaaaaaaaaaaaaaaaaaaaaaaa", userEmail := .str "u@v.w",
    trainerId := .str "zz", status := .str "success" }

/-- A store whose only successful booking references a malformed
trainer id, for concrete runs. -/
def c6badStore : Store := {bookings := [c6badBooking]}

/-- A trainer referenced by `c6booking`. -/
def c6trainer : TrainerDoc := {oid := "abcabcabcabcabcabcabcabc", name := .str "T"}

/-- A successful booking whose trainer reference resolves. -/
def c6booking : BookingDoc :=
  { oid := "aaaaaaaaaaaaaaaaaaaaaaaa", userEmail := .str "u@v.w",
    trainerId := .str "abcabcabcabcabcabcabcabc", status := .str "success" }

/-- A store with one successful booking whose trainer reference
resolves, for concrete runs. -/
def c6store : Store := {trainers := [c6trainer], bookings := [c6booking]}

/-- A valid class-creation body, for concrete runs. -/
def c4class : ClassBody := {name := .str "Yoga", image := .str "img", details := .str "d"}

/-- A forum-post body, for concrete runs. -/
def c4forum : ForumBody := {rest := [("title", .str "hi")]}

/-- A review body, for concrete runs. -/
def c4review : ReviewBody := {trainerId := .str "t1"}

/-- A registration body with a fresh email, for concrete runs. -/
def c4user : UserBody := {email := .str "new@u.v"}

/-- A testimonial body, for concrete runs. -/
def c4testimonial : TestimonialBody := {name := .str "N", review := .str "great"}

/-- A payment body with a string trainer reference, for concrete
runs. -/
def c4payment : PaymentBody :=
  {userEmail := .str "u@u.u", trainerId := .str "abcabcabcabcabcabcabcabc"}

/-- Unfolding of `==` on JSON values. -/
theorem jval_beq_def (a b : JVal) : (a == b) = JVal.beq a b := rfl

/-- A JSON value compares equal to a string value exactly when it is
that string value. -/
theorem jval_beq_str_iff (v : JVal) (s : String) :
    (v == JVal.str s) = true ↔ v = JVal.str s := by
  cases v <;> simp [jval_beq_def, JVal.beq]

/-- String values compare equal to themselves. -/
theorem jval_beq_str_self (s : String) : (JVal.str s == JVal.str s) = true := by
  simp [jval_beq_def, JVal.beq]

/-- Arrays are truthy. -/
theorem truthy_of_isArr {v : JVal} (h : v.isArr = true) : v.truthy = true := by
  cases v <;> simp_all [JVal.isArr, JVal.truthy]

/-- Objects are truthy. -/
theorem truthy_obj (fs : List (String × JVal)) : (JVal.obj fs).truthy = true := rfl

/-- `a || b` keeps a truthy `a`. -/
theorem jsOr_of_truthy {a : JVal} (b : JVal) (h : a.truthy = true) : jsOr a b = a := by
  simp [jsOr, h]

/-- `a || b` falls back to `b` for falsy `a`. -/
theorem jsOr_of_falsy {a : JVal} (b : JVal) (h : a.truthy = false) : jsOr a b = b := by
  simp [jsOr, h]

/-- `updateFirst` does not change the length. -/
theorem length_updateFirst (p : α → Bool) (f : α → α) (l : List α) :
    (updateFirst p f l).length = l.length := by
  induction l with
  | nil => rfl
  | cons x xs ih => by_cases hx : p x <;> simp [updateFirst, hx, ih]

/-- `updateFirst` rewrites exactly the document `find?` locates:
looking the key up again yields the rewritten document, as long as the
rewrite still matches the filter. -/
theorem find?_updateFirst {p : α → Bool} {f : α → α} {l : List α} {a : α}
    (h : l.find? p = some a) (hpf : p (f a) = true) :
    (updateFirst p f l).find? p = some (f a) := by
  induction l with
  | nil => simp at h
  | cons x xs ih =>
      by_cases hx : p x
      · rw [List.find?_cons_of_pos _ hx] at h
        cases h
        simp [updateFirst, hx, List.find?_cons_of_pos _ hpf]
      · rw [List.find?_cons_of_neg _ hx] at h
        simp [updateFirst, hx, List.find?_cons_of_neg _ hx, ih h]

/-- Documents the filter does not match survive `updateFirst`
untouched. -/
theorem mem_updateFirst_of_not {p : α → Bool} {f : α → α} {l : List α} {x : α}
    (hx : x ∈ l) (hpx : p x = false) : x ∈ updateFirst p f l := by
  induction l with
  | nil => simp at hx
  | cons y ys ih =>
      rcases List.mem_cons.mp hx with rfl | hmem
      · simp [updateFirst, hpx]
      · by_cases hy : p y
        · simp only [updateFirst, hy, if_pos, List.mem_cons]
          exact Or.inr hmem
        · simp only [updateFirst, hy, if_neg, Bool.false_eq_true,
            not_false_iff, List.mem_cons]
          exact Or.inr (ih hmem)

/-- A key-preserving `updateFirst` leaves the key sequence of the
collection unchanged. -/
theorem map_key_updateFirst {β} (key : α → β) {p : α → Bool} {f : α → α}
    (hf : ∀ x, key (f x) = key x) (l : List α) :
    (updateFirst p f l).map key = l.map key := by
  induction l with
  | nil => rfl
  | cons x xs ih => by_cases hx : p x <;> simp [updateFirst, hx, ih, hf]

/-- When the first list holds a match, `deleteOne` over an appended
list acts entirely inside the first list. -/
theorem removeFirst_append_left {p : α → Bool} {l : List α} (l' : List α)
    (h : ∃ x ∈ l, p x = true) : removeFirst p (l ++ l') = removeFirst p l ++ l' := by
  induction l with
  | nil => simp at h
  | cons x xs ih =>
      by_cases hx : p x
      · simp [removeFirst, hx]
      · rcases h with ⟨y, hy, hpy⟩
        rcases List.mem_cons.mp hy with rfl | hmem
        · simp [hx] at hpy
        · simp [removeFirst, hx, ih ⟨y, hmem, hpy⟩]

/-- In a collection with pairwise-distinct keys, removing the document
with key `k` leaves no document with key `k`. -/
theorem key_ne_of_mem_removeFirst {β} [BEq β] [LawfulBEq β] (key : α → β) {l : List α}
    {k : β} {x : α} (hnd : (l.map key).Nodup)
    (hx : x ∈ removeFirst (fun y => key y == k) l) : key x ≠ k := by
  induction l with
  | nil => simp [removeFirst] at hx
  | cons y ys ih =>
      simp only [List.map_cons, List.nodup_cons] at hnd
      by_cases hy : key y = k
      · rw [show removeFirst (fun y => key y == k) (y :: ys) = ys by
          simp [removeFirst, hy]] at hx
        intro hxk
        apply hnd.1
        have hmap : key x ∈ List.map key ys := List.mem_map_of_mem key hx
        rwa [hxk, ← hy] at hmap
      · rw [show removeFirst (fun y => key y == k) (y :: ys)
            = y :: removeFirst (fun y => key y == k) ys by
          simp [removeFirst, hy]] at hx
        rcases List.mem_cons.mp hx with rfl | hmem
        · exact hy
        · exact ih hnd.2 hmem

/-- In a collection with pairwise-distinct keys, `findOne` by the key
of a present document returns exactly that document. -/
theorem find?_key_of_nodup {β} [BEq β] [LawfulBEq β] [DecidableEq β]
    (key : α → β) {l : List α} {x : α}
    (hnd : (l.map key).Nodup) (hx : x ∈ l) :
    l.find? (fun y => key y == key x) = some x := by
  induction l with
  | nil => simp at hx
  | cons y ys ih =>
      simp only [List.map_cons, List.nodup_cons] at hnd
      rcases List.mem_cons.mp hx with rfl | hmem
      · simp
      · have hne : key y ≠ key x := by
          intro he
          exact hnd.1 (he ▸ List.mem_map_of_mem key hmem)
        rw [List.find?_cons_of_neg _ (by simpa using hne)]
        exact ih hnd.2 hmem

/-- `find?` ignores a pre-filter that is implied by the predicate. -/
theorem find?_filter_of_imp {p q : α → Bool} (l : List α)
    (h : ∀ a, p a = true → q a = true) : (l.filter q).find? p = l.find? p := by
  induction l with
  | nil => rfl
  | cons x xs ih =>
      by_cases hp : p x
      · have hq := h x hp
        simp [List.filter_cons, hq, List.find?_cons_of_pos _ hp]
      · by_cases hq : q x <;>
          simp [List.filter_cons, hq, List.find?_cons_of_neg _ (by simpa using hp), ih]

/-- A total option-map succeeds. -/
theorem mapOptAll_isSome {f : α → Option β} {l : List α}
    (h : ∀ x ∈ l, (f x).isSome = true) : ∃ ys, mapOptAll f l = some ys := by
  induction l with
  | nil => exact ⟨[], rfl⟩
  | cons x xs ih =>
      rcases ih (fun y hy => h y (List.mem_cons_of_mem x hy)) with ⟨ys, hys⟩
      rcases Option.isSome_iff_exists.mp (h x (List.mem_cons_self x xs)) with ⟨y, hy⟩
      exact ⟨y :: ys, by simp [mapOptAll, hy, hys]⟩

/-- Whatever a successful option-map produced for a member is in the
output list. -/
theorem mem_of_mapOptAll {f : α → Option β} {l : List α} {ys : List β}
    (hl : mapOptAll f l = some ys) {x : α} (hx : x ∈ l) {y : β}
    (hy : f x = some y) : y ∈ ys := by
  induction l generalizing ys with
  | nil => simp at hx
  | cons z zs ih =>
      rcases hz : f z with _ | w <;> rcases hzs : mapOptAll f zs with _ | ws <;>
        simp [mapOptAll, hz, hzs] at hl
      subst hl
      rcases List.mem_cons.mp hx with rfl | hmem
      · simp [hz] at hy
        simp [hy]
      · exact List.mem_cons_of_mem _ (ih hzs hmem)

/-- Every member of a list is on some `skip = pg * k`, `take = k` page
of it. -/
theorem exists_page_mem {l : List α} {x : α} (hx : x ∈ l) {k : Nat} (hk : 0 < k) :
    ∃ pg : Nat, x ∈ (l.drop (pg * k)).take k := by
  rcases List.getElem_of_mem hx with ⟨i, hi, hix⟩
  refine ⟨i / k, ?_⟩
  have hmod : i % k < k := Nat.mod_lt _ hk
  have hsplit : i / k * k + i % k = i := by
    rw [Nat.mul_comm]
    exact Nat.div_add_mod i k
  have hlen : i % k < (l.drop (i / k * k)).length := by
    rw [List.length_drop]
    omega
  have hget : (l.drop (i / k * k))[i % k] = x := by
    rw [List.getElem_drop]
    simp only [hsplit]
    exact hix
  have hlen2 : i % k < ((l.drop (i / k * k)).take k).length := by
    rw [List.length_take]
    omega
  have hx2 : ((l.drop (i / k * k)).take k)[i % k] = x := by
    rw [List.getElem_take]
    exact hget
  exact hx2 ▸ List.getElem_mem hlen2

/-- C3: for every well-formed id that matches no document in the
trainers collection, Reject-application answers 404 and leaves every
collection of the store unchanged. -/
theorem claim_C3_reject_missing (s : Store) (id : String) (feedback : JVal)
    (hvalid : isValidOid id = true)
    (hno : ∀ d ∈ s.trainers, d.oid ≠ id) :
    rejectApplication s id feedback = (404, s) := by
  have hfind : s.trainers.find? (fun d => d.oid == id) = none :=
    List.find?_eq_none.mpr (fun d hd => by simp [hno d hd])
  simp [rejectApplication, hvalid, hfind]

/-- Witness for C3 at a concrete id and the empty store. -/
theorem claim_C3_witness :
    rejectApplication emptyStore "507f1f77bcf86cd799439011" JVal.undef
      = (404, emptyStore) :=
  claim_C3_reject_missing emptyStore "507f1f77bcf86cd799439011" JVal.undef
    (by decide) (by intro d hd; simp [emptyStore] at hd)

/-- C7: List-classes with page 2 and limit 6 returns at most 6 items,
reports `currentPage = 2`, reports `totalPages` equal to the ceiling of
`totalClasses / 6` (stated as: the least number of 6-element pages
covering `totalClasses`), where `totalClasses` counts the documents
matching the search filter, and the returned page is the sorted
sequence with the first `(2-1)*6` documents skipped. -/
theorem claim_C7_classes_pagination (s : Store) (search : String) :
    (getClassesCore s 2 6 search).data.length ≤ 6 ∧
    (getClassesCore s 2 6 search).currentPage = 2 ∧
    (getClassesCore s 2 6 search).totalClasses =
      (s.classes.filter
        (fun c => if search = "" then true else strContainsCI search c.name)).length ∧
    (getClassesCore s 2 6 search).totalClasses
      ≤ 6 * (getClassesCore s 2 6 search).totalPages ∧
    (∀ m : Nat, (getClassesCore s 2 6 search).totalClasses ≤ 6 * m →
      (getClassesCore s 2 6 search).totalPages ≤ m) ∧
    (getClassesCore s 2 6 search).data =
      ((sortByKeyDesc (·.createdAt) (s.classes.filter
        (fun c => if search = "" then true else strContainsCI search c.name))).drop
          ((2 - 1) * 6)).take 6 := by
  refine ⟨?_, rfl, rfl, ?_, ?_, rfl⟩
  · simp only [getClassesCore, List.length_take]
    exact min_le_left _ _
  · simp only [getClassesCore, ceilDivN]
    omega
  · intro m hm
    simp only [getClassesCore, ceilDivN] at hm ⊢
    omega

/-- C9 (amended): for an email with no trainer document,
`GET /trainers/email/:email` answers 404, while the duplicate route
`GET /trainers/by-email/:email` answers 200 with a null body. -/
theorem claim_C9_email_lookups (s : Store) (email : String)
    (hno : ∀ d ∈ s.trainers, (d.email == JVal.str email) = false) :
    trainerByEmail s email = (404, none) ∧
    trainerByEmailDup s email = (200, none) := by
  have hfind : s.trainers.find? (fun d => d.email == JVal.str email) = none :=
    List.find?_eq_none.mpr (fun d hd => by simp [hno d hd])
  exact ⟨by simp [trainerByEmail, hfind], by simp [trainerByEmailDup, hfind]⟩

/-- Witness for C9 at the empty store. -/
theorem claim_C9_witness :
    trainerByEmail emptyStore "a@b.c" = (404, none) ∧
    trainerByEmailDup emptyStore "a@b.c" = (200, none) :=
  claim_C9_email_lookups emptyStore "a@b.c"
    (by intro d hd; simp [emptyStore] at hd)

/-- Counterexample for C9 as stated: the `by-email` route answers a
200 success, not a 404-equivalent, when no trainer has the email. -/
theorem claim_C9_cex :
    (trainerByEmailDup emptyStore "nobody@example.com").1 = 200 ∧
    (200 : Nat) ≠ 404 := ⟨rfl, by decide⟩

/-- C5: registering an already-present email answers 200 with the
existing document and inserts nothing; when the existing document's
role is missing (falsy), the stored document gains `role = "member"`,
the response reflects it, and every other user survives unchanged. -/
theorem claim_C5_duplicate_registration (s : Store) (body : UserBody) (u : UserDoc)
    (fid : String)
    (hemail : body.email.truthy = true)
    (hfind : s.users.find? (fun d => d.email == body.email) = some u) :
    (registerUser s body fid).1 = 200 ∧
    (registerUser s body fid).2.2.users.length = s.users.length ∧
    (u.role.truthy = true →
      (registerUser s body fid).2.1 = some u ∧
      (registerUser s body fid).2.2 = s) ∧
    (u.role.truthy = false →
      (registerUser s body fid).2.1 = some {u with role := .str "member"} ∧
      (registerUser s body fid).2.2.users.find? (fun d => d.email == body.email)
        = some {u with role := .str "member"} ∧
      (∀ x ∈ s.users, (x.email == body.email) = false →
        x ∈ (registerUser s body fid).2.2.users)) := by
  have hp : (u.email == body.email) = true := by
    have h2 := List.find?_some hfind
    simpa using h2
  by_cases hrole : u.role.truthy
  · refine ⟨?_, ?_, fun _ => ⟨?_, ?_⟩, fun hf => absurd hrole (by simp [hf])⟩ <;>
      simp [registerUser, hemail, hfind, hrole]
  · have hrole' : u.role.truthy = false := by simpa using hrole
    refine ⟨?_, ?_, fun ht => absurd ht (by simp [hrole']), fun _ => ⟨?_, ?_, ?_⟩⟩
    · simp [registerUser, hemail, hfind, hrole']
    · simp [registerUser, hemail, hfind, hrole', length_updateFirst]
    · simp [registerUser, hemail, hfind, hrole']
    · simp only [registerUser, hemail, Bool.not_true, Bool.false_eq_true,
        if_false, hfind, hrole', Bool.not_false, if_true]
      exact find?_updateFirst hfind (by simpa using hp)
    · intro x hx hxe
      simp only [registerUser, hemail, Bool.not_true, Bool.false_eq_true,
        if_false, hfind, hrole', Bool.not_false, if_true]
      exact mem_updateFirst_of_not hx hxe

/-- Witness for C5: a stored role-less user re-registered by email. -/
theorem claim_C5_witness :
    (registerUser w5store w5body "bbbbbbbbbbbbbbbbbbbbbbbb").1 = 200 ∧
    (registerUser w5store w5body "bbbbbbbbbbbbbbbbbbbbbbbb").2.1
      = some {w5user with role := .str "member"} ∧
    (registerUser w5store w5body "bbbbbbbbbbbbbbbbbbbbbbbb").2.2.users.length = 1 := by
  have h := claim_C5_duplicate_registration w5store w5body w5user
    "bbbbbbbbbbbbbbbbbbbbbbbb" (by decide) rfl
  have hrole : w5user.role.truthy = false := by decide
  exact ⟨h.1, (h.2.2.2 hrole).1, h.2.1⟩

/-- C1: approving a present pending application (with the list-valued
fields an application submission guarantees) answers success, leaves no
document with the application's id in the pending list, and puts a new
document in the trainers collection with status `"approved"`, the same
name, email and carried-over fields, and the fresh timestamp. -/
theorem claim_C1_approve_application (s : Store) (a : TrainerDoc) (now : Nat)
    (fid : String)
    (hmem : a ∈ s.trainers)
    (hpending : a.status = JVal.str "pending")
    (hvalid : isValidOid a.oid = true)
    (hnd : (s.trainers.map (·.oid)).Nodup)
    (hfid : fid ∉ s.trainers.map (·.oid))
    (hex : a.expertise.isArr = true)
    (hdays : a.availableDays.isArr = true)
    (hslots : a.availableSlots.isArr = true)
    (hsoc : ∃ fs, a.socials = JVal.obj fs) :
    (confirmApplication s a.oid now fid).1 = 200 ∧
    (∀ e ∈ pendingApplications (confirmApplication s a.oid now fid).2,
      e.oid ≠ a.oid) ∧
    (∃ d ∈ (confirmApplication s a.oid now fid).2.trainers,
      d.oid = fid ∧ d.status = JVal.str "approved" ∧ d.createdAt = now ∧
      d.name = a.name ∧ d.email = a.email ∧ d.age = a.age ∧ d.image = a.image ∧
      d.experience = a.experience ∧ d.details = a.details ∧
      d.expertise = a.expertise ∧ d.availableDays = a.availableDays ∧
      d.availableSlots = a.availableSlots ∧ d.socials = a.socials) := by
  have hfind : s.trainers.find? (fun e => e.oid == a.oid) = some a := by
    have h := find?_key_of_nodup (fun t : TrainerDoc => t.oid) hnd hmem
    simpa using h
  have hkeyne : fid ≠ a.oid := by
    intro h
    exact hfid (h ▸ List.mem_map_of_mem (fun t : TrainerDoc => t.oid) hmem)
  have htr : (confirmApplication s a.oid now fid).2.trainers
      = removeFirst (fun e => e.oid == a.oid) s.trainers
        ++ [approvedDoc a now fid] := by
    have hrm := removeFirst_append_left (p := fun e : TrainerDoc => e.oid == a.oid)
      [approvedDoc a now fid] ⟨a, hmem, by simp⟩
    simp [confirmApplication, hvalid, hfind, hrm]
  refine ⟨?_, ?_, ?_⟩
  · simp [confirmApplication, hvalid, hfind]
  · intro e he
    have he2 : e ∈ (confirmApplication s a.oid now fid).2.trainers :=
      (List.mem_filter.mp he).1
    rw [htr] at he2
    rcases List.mem_append.mp he2 with hleft | hright
    · exact key_ne_of_mem_removeFirst (fun t : TrainerDoc => t.oid) hnd
        (by simpa using hleft)
    · rw [List.mem_singleton.mp hright]
      exact hkeyne
  · refine ⟨approvedDoc a now fid, ?_, rfl, rfl, rfl, rfl, rfl, rfl, rfl, rfl,
      rfl, ?_, ?_, ?_, ?_⟩
    · rw [htr]
      exact List.mem_append_right _ (List.mem_singleton_self _)
    · exact jsOr_of_truthy _ (truthy_of_isArr hex)
    · exact jsOr_of_truthy _ (truthy_of_isArr hdays)
    · exact jsOr_of_truthy _ (truthy_of_isArr hslots)
    · rcases hsoc with ⟨fs, hfs⟩
      rw [show approvedDoc a now fid = {approvedDoc a now fid with
        socials := jsOr a.socials (.obj [])} from rfl]
      simp only [approvedDoc, hfs]
      exact jsOr_of_truthy _ (truthy_obj fs)

/-- Witness for C1: approving the concrete pending application
`c1app`. -/
theorem claim_C1_witness :
    (confirmApplication c1store c1app.oid 7 "dddddddddddddddddddddddd").1 = 200 ∧
    (∀ e ∈ pendingApplications
        (confirmApplication c1store c1app.oid 7 "dddddddddddddddddddddddd").2,
      e.oid ≠ c1app.oid) ∧
    (∃ d ∈ (confirmApplication c1store c1app.oid 7
        "dddddddddddddddddddddddd").2.trainers,
      d.oid = "dddddddddddddddddddddddd" ∧ d.status = JVal.str "approved" ∧
      d.createdAt = 7 ∧ d.name = c1app.name ∧ d.email = c1app.email ∧
      d.age = c1app.age ∧ d.image = c1app.image ∧
      d.experience = c1app.experience ∧ d.details = c1app.details ∧
      d.expertise = c1app.expertise ∧ d.availableDays = c1app.availableDays ∧
      d.availableSlots = c1app.availableSlots ∧ d.socials = c1app.socials) :=
  claim_C1_approve_application c1store c1app 7 "dddddddddddddddddddddddd"
    (by simp [c1store]) rfl (by decide) (by simp [c1store])
    (by decide) rfl rfl rfl ⟨_, rfl⟩

/-- C10: on a well-formed id matching no trainer, `PATCH
/trainers/:id/add-slot` answers 404 (zero documents modified) while
`POST /trainers/:id/slots` answers success, both leaving the store
unchanged; on a present trainer with an array-valued `availableSlots`,
both routes coincide, answer success, and append the request body to
`availableSlots`. -/
theorem claim_C10_slot_routes :
    (∀ (s : Store) (id : String) (body : JVal),
      isValidOid id = true → (∀ d ∈ s.trainers, d.oid ≠ id) →
      addSlotPatch s id body = (404, s) ∧ addSlotPost s id body = (200, s)) ∧
    (∀ (s : Store) (d : TrainerDoc) (body : JVal) (xs : List JVal),
      d ∈ s.trainers → (s.trainers.map (·.oid)).Nodup →
      isValidOid d.oid = true → d.availableSlots = JVal.arr xs →
      (addSlotPatch s d.oid body).1 = 200 ∧
      addSlotPost s d.oid body = addSlotPatch s d.oid body ∧
      (addSlotPatch s d.oid body).2.trainers.find? (fun e => e.oid == d.oid)
        = some {d with availableSlots := JVal.arr (xs ++ [body])}) := by
  constructor
  · intro s id body hvalid hno
    have hfind : s.trainers.find? (fun e => e.oid == id) = none :=
      List.find?_eq_none.mpr (fun d hd => by simp [hno d hd])
    exact ⟨by simp [addSlotPatch, hvalid, hfind],
      by simp [addSlotPost, hvalid, hfind]⟩
  · intro s d body xs hmem hnd hvalid hslots
    have hfind : s.trainers.find? (fun e => e.oid == d.oid) = some d := by
      have h := find?_key_of_nodup (fun t : TrainerDoc => t.oid) hnd hmem
      simpa using h
    have hpush : jsPush d.availableSlots body = some (JVal.arr (xs ++ [body])) := by
      rw [hslots]
      rfl
    refine ⟨by simp [addSlotPatch, hvalid, hfind, hpush], ?_, ?_⟩
    · simp [addSlotPost, addSlotPatch, hvalid, hfind, hpush]
    · have hres : (addSlotPatch s d.oid body).2.trainers
          = updateFirst (fun e => e.oid == d.oid)
            (fun e => {e with availableSlots := JVal.arr (xs ++ [body])})
            s.trainers := by
        simp [addSlotPatch, hvalid, hfind, hpush]
      rw [hres]
      exact find?_updateFirst hfind (by simp)

/-- Witness for C10: a missing id on the empty store and the concrete
trainer `c10doc`. -/
theorem claim_C10_witness :
    (addSlotPatch emptyStore "507f1f77bcf86cd799439011" (JVal.str "Tue 9-10")
      = (404, emptyStore) ∧
     addSlotPost emptyStore "507f1f77bcf86cd799439011" (JVal.str "Tue 9-10")
      = (200, emptyStore)) ∧
    ((addSlotPatch c10store c10doc.oid (JVal.str "Tue 9-10")).1 = 200 ∧
     addSlotPost c10store c10doc.oid (JVal.str "Tue 9-10")
      = addSlotPatch c10store c10doc.oid (JVal.str "Tue 9-10") ∧
     (addSlotPatch c10store c10doc.oid (JVal.str "Tue 9-10")).2.trainers.find?
        (fun e => e.oid == c10doc.oid)
      = some {c10doc with
          availableSlots := JVal.arr [.str "Mon 9-10", .str "Tue 9-10"]}) :=
  ⟨claim_C10_slot_routes.1 emptyStore "507f1f77bcf86cd799439011"
      (JVal.str "Tue 9-10") (by decide) (by intro d hd; simp [emptyStore] at hd),
   claim_C10_slot_routes.2 c10store c10doc (JVal.str "Tue 9-10") [.str "Mon 9-10"]
      (by simp [c10store]) (by simp [c10store]) (by decide) rfl⟩

/-- Up-vote counters stay incrementable along repeated votes: `$inc` on
the post after `n` votes yields the counter of the post after `n + 1`
votes. -/
theorem jsInc_votedPost (p : ForumPost) (n : Nat)
    (hup : p.upvotes = JVal.undef ∨ ∃ u : Int, p.upvotes = JVal.num u) :
    jsInc (votedPost p n).upvotes
      = some (JVal.num (upCount p.upvotes + (n + 1 : Nat))) := by
  rcases Nat.eq_zero_or_pos n with rfl | hn
  · rcases hup with h | ⟨u, h⟩ <;> simp [votedPost, h, jsInc, upCount]
  · have hne : n ≠ 0 := Nat.pos_iff_ne_zero.mp hn
    simp only [votedPost, hne, if_false, jsInc]
    congr 1
    push_cast
    ring_nf

/-- After `n + 1` votes the post is the `n`-vote post with its counter
replaced. -/
theorem votedPost_succ (p : ForumPost) (n : Nat) :
    votedPost p (n + 1)
      = {votedPost p n with upvotes := JVal.num (upCount p.upvotes + (n + 1 : Nat))} := by
  rcases Nat.eq_zero_or_pos n with rfl | hn
  · simp [votedPost]
  · have hne : n ≠ 0 := Nat.pos_iff_ne_zero.mp hn
    simp [votedPost, hne]

/-- Invariant of repeated up-votes: the voted post is found with its
counter advanced by `n`, the id sequence of the forum collection is
unchanged, and every other post survives untouched. -/
theorem voteUpN_invariant (s : Store) (p : ForumPost)
    (hvalid : isValidOid p.oid = true)
    (hnd : (s.forum.map (·.oid)).Nodup)
    (hfind : s.forum.find? (fun q => q.oid == p.oid) = some p)
    (hup : p.upvotes = JVal.undef ∨ ∃ u : Int, p.upvotes = JVal.num u) :
    ∀ n : Nat,
      (voteUpN p.oid n s).forum.find? (fun q => q.oid == p.oid)
        = some (votedPost p n) ∧
      (voteUpN p.oid n s).forum.map (·.oid) = s.forum.map (·.oid) ∧
      (∀ q ∈ s.forum, q.oid ≠ p.oid → q ∈ (voteUpN p.oid n s).forum) := by
  intro n
  induction n with
  | zero => exact ⟨by simpa [voteUpN, votedPost] using hfind, rfl,
      fun q hq _ => by simpa [voteUpN] using hq⟩
  | succ n ih =>
      have hstep : voteUpN p.oid (n + 1) s
          = (voteForum (voteUpN p.oid n s) p.oid (JVal.str "up")).2 := by
        simp [voteUpN, Function.iterate_succ_apply']
      have hinc := jsInc_votedPost p n hup
      have hforum : (voteForum (voteUpN p.oid n s) p.oid (JVal.str "up")).2.forum
          = updateFirst (fun q => q.oid == p.oid)
              (fun q => {q with upvotes := JVal.num (upCount p.upvotes + (n + 1 : Nat))})
              (voteUpN p.oid n s).forum := by
        simp [voteForum, hvalid, ih.1, jval_beq_str_self, hinc]
      refine ⟨?_, ?_, ?_⟩
      · rw [hstep, hforum, votedPost_succ p n]
        exact find?_updateFirst ih.1 (by simpa using List.find?_some ih.1)
      · have hmap := @map_key_updateFirst ForumPost String
          (fun q : ForumPost => q.oid) (fun q => q.oid == p.oid)
          (fun q => {q with upvotes := JVal.num (upCount p.upvotes + (n + 1 : Nat))})
          (fun _ => rfl) (voteUpN p.oid n s).forum
        rw [hstep, hforum, hmap]
        exact ih.2.1
      · intro q hq hqne
        rw [hstep, hforum]
        exact mem_updateFirst_of_not (ih.2.2 q hq hqne) (by simp [hqne])

/-- C8: up-voting a present forum post answers success and bumps
exactly its up-vote counter by one, leaving its down-votes and every
other field, and every other post, unchanged; `n` repeated up-votes
advance the counter by exactly `n`. -/
theorem claim_C8_forum_upvote (s : Store) (p : ForumPost)
    (hmem : p ∈ s.forum)
    (hvalid : isValidOid p.oid = true)
    (hnd : (s.forum.map (·.oid)).Nodup)
    (hup : p.upvotes = JVal.undef ∨ ∃ u : Int, p.upvotes = JVal.num u) :
    (voteForum s p.oid (JVal.str "up")).1 = 200 ∧
    ((voteForum s p.oid (JVal.str "up")).2.forum.find? (fun q => q.oid == p.oid)
      = some {p with upvotes := JVal.num (upCount p.upvotes + 1)}) ∧
    (∀ q ∈ s.forum, q.oid ≠ p.oid →
      q ∈ (voteForum s p.oid (JVal.str "up")).2.forum) ∧
    (∀ n : Nat, (voteUpN p.oid n s).forum.find? (fun q => q.oid == p.oid)
      = some (votedPost p n)) := by
  have hfind : s.forum.find? (fun q => q.oid == p.oid) = some p := by
    have h := find?_key_of_nodup (fun q : ForumPost => q.oid) hnd hmem
    simpa using h
  have hinv := voteUpN_invariant s p hvalid hnd hfind hup
  have hone : (voteForum s p.oid (JVal.str "up")).2 = voteUpN p.oid 1 s := by
    simp [voteUpN]
  refine ⟨?_, ?_, ?_, fun n => (hinv n).1⟩
  · have hinc : ∃ v, jsInc p.upvotes = some v := by
      rcases hup with h | ⟨u, h⟩
      · exact ⟨JVal.num 1, by simp [jsInc, h]⟩
      · exact ⟨JVal.num (u + 1), by simp [jsInc, h]⟩
    rcases hinc with ⟨v, hv⟩
    simp [voteForum, hvalid, hfind, jval_beq_str_self, hv]
  · rw [hone]
    have h1 := (hinv 1).1
    rw [show votedPost p 1 = {p with upvotes := JVal.num (upCount p.upvotes + 1)} by
      simp [votedPost]] at h1
    exact h1
  · intro q hq hqne
    rw [hone]
    exact (hinv 1).2.2 q hq hqne

/-- Witness for C8: the concrete post `c8post` voted once and five
times. -/
theorem claim_C8_witness :
    (voteForum c8store c8post.oid (JVal.str "up")).1 = 200 ∧
    ((voteForum c8store c8post.oid (JVal.str "up")).2.forum.find?
        (fun q => q.oid == c8post.oid)
      = some {c8post with upvotes := JVal.num (upCount c8post.upvotes + 1)}) ∧
    (voteUpN c8post.oid 5 c8store).forum.find? (fun q => q.oid == c8post.oid)
      = some (votedPost c8post 5) := by
  have h := claim_C8_forum_upvote c8store c8post (by simp [c8store]) (by decide)
    (by simp [c8store]) (Or.inr ⟨2, rfl⟩)
  exact ⟨h.1, h.2.1, h.2.2.2 5⟩

/-- C2 (amended): the document the application-submit endpoint inserts
has `age` and `experience` run through the `Number` coercion, each
list-typed field kept when the payload value is an array and replaced
by the empty list otherwise, `socials` defaulted to the fixed
three-key object (facebook/instagram/linkedin, each empty) when absent,
and `status` set to `"pending"` only when the payload carries no truthy
status — a truthy payload status is kept. -/
theorem claim_C2_apply_normalisation (s : Store) (b : ApplyBody) (now : Nat)
    (fid : String) :
    ∃ d : TrainerDoc,
      (applyTrainer s b now fid).2.trainers = s.trainers ++ [d] ∧
      d.age = jsNumber b.age ∧
      d.experience = jsNumber b.experience ∧
      (b.expertise.isArr = true → d.expertise = b.expertise) ∧
      (b.expertise.isArr = false → d.expertise = JVal.arr []) ∧
      (b.availableDays.isArr = true → d.availableDays = b.availableDays) ∧
      (b.availableDays.isArr = false → d.availableDays = JVal.arr []) ∧
      (b.availableSlots.isArr = true → d.availableSlots = b.availableSlots) ∧
      (b.availableSlots.isArr = false → d.availableSlots = JVal.arr []) ∧
      (b.socials = JVal.undef → d.socials = defaultSocials) ∧
      (b.status.truthy = false → d.status = JVal.str "pending") ∧
      (b.status.truthy = true → d.status = b.status) ∧
      d.createdAt = now := by
  refine ⟨_, rfl, rfl, rfl, ?_, ?_, ?_, ?_, ?_, ?_, ?_, ?_, ?_, rfl⟩
  · intro h
    simp [appliedDoc, h]
  · intro h
    simp [appliedDoc, h]
  · intro h
    simp [appliedDoc, h]
  · intro h
    simp [appliedDoc, h]
  · intro h
    simp [appliedDoc, h]
  · intro h
    simp [appliedDoc, h]
  · intro h
    simp [appliedDoc, jsOr, h, JVal.truthy]
  · intro h
    simp [appliedDoc, jsOr, h]
  · intro h
    simp [appliedDoc, jsOr, h]

/-- Witness for C2: the concrete body `c2body` inserted into the empty
store. -/
theorem claim_C2_witness :
    ∃ d : TrainerDoc,
      (applyTrainer emptyStore c2body 4 "aaaaaaaaaaaaaaaaaaaaaaaa").2.trainers
        = emptyStore.trainers ++ [d] ∧
      d.age = jsNumber c2body.age ∧
      d.expertise = JVal.arr [] ∧
      d.socials = defaultSocials ∧
      d.status = c2body.status := by
  rcases claim_C2_apply_normalisation emptyStore c2body 4
      "aaaaaaaaaaaaaaaaaaaaaaaa" with
    ⟨d, hins, hage, _, _, hexF, _, _, _, _, hsoc, _, hstatT, _⟩
  exact ⟨d, hins, hage, hexF (by decide), hsoc rfl, hstatT (by decide)⟩

/-- Counterexample for C2 as stated: with `socials` absent the inserted
document's socials are the fixed three-key object, not an empty map,
and a payload carrying status `"approved"` is inserted with that
status, not `"pending"`. -/
theorem claim_C2_cex :
    ((applyTrainer emptyStore c2body 0 "aaaaaaaaaaaaaaaaaaaaaaaa").2.trainers.map
        (·.socials) ≠ [JVal.obj []]) ∧
    ((applyTrainer emptyStore c2body 0 "aaaaaaaaaaaaaaaaaaaaaaaa").2.trainers.map
        (·.status) ≠ [JVal.str "pending"]) := by
  constructor <;>
    simp [applyTrainer, appliedDoc, emptyStore, c2body, jsOr, JVal.truthy,
      defaultSocials]

/-- C6 (amended): provided every successful booking of the user carries
a well-formed trainer-id string, the merge query answers 200 with
exactly the user's successful bookings (as a permutation of the
filter), each carrying as `trainerDetails` the first trainer document
whose id string-equals the booking's `trainerId`, or `null` when none
matches. -/
theorem claim_C6_bookings_merge (s : Store) (email : String)
    (hids : ∀ b ∈ s.bookings,
      (b.userEmail == JVal.str email && b.status == JVal.str "success") = true →
      (parseOidOfJVal b.trainerId).isSome = true) :
    (bookingsByUser s email).1 = 200 ∧
    ∃ l, (bookingsByUser s email).2 = some l ∧
      (l.map (·.booking)).Perm (s.bookings.filter (fun b =>
        b.userEmail == JVal.str email && b.status == JVal.str "success")) ∧
      ∀ m ∈ l, m.trainerDetails
        = s.trainers.find? (fun t => m.booking.trainerId == JVal.str t.oid) := by
  have hperm : (userSuccessBookings s email).Perm (s.bookings.filter (fun b =>
      b.userEmail == JVal.str email && b.status == JVal.str "success")) :=
    List.perm_insertionSort _ _
  have hall : ∀ b ∈ userSuccessBookings s email,
      (parseOidOfJVal b.trainerId).isSome = true := by
    intro b hb
    have hbf := hperm.mem_iff.mp hb
    exact hids b (List.mem_filter.mp hbf).1 (List.mem_filter.mp hbf).2
  by_cases hemp : (userSuccessBookings s email).isEmpty
  · have hres : bookingsByUser s email = (200, some []) := by
      simp [bookingsByUser, hemp]
    have hnil : userSuccessBookings s email = [] := by
      simpa using hemp
    rw [hnil] at hperm
    rw [hres]
    exact ⟨rfl, [], rfl, by simpa using hperm, by simp⟩
  · rcases mapOptAll_isSome hall with ⟨tids, htids⟩
    have hres : bookingsByUser s email
        = (200, some ((userSuccessBookings s email).map
            (mergeBooking (s.trainers.filter (fun t => tids.contains t.oid))))) := by
      simp [bookingsByUser, hemp, htids]
    rw [hres]
    refine ⟨rfl, _, rfl, ?_, ?_⟩
    · rw [List.map_map]
      have hcomp : ((fun m : MergedBooking => m.booking) ∘
          mergeBooking (s.trainers.filter (fun t => tids.contains t.oid)))
          = fun b => b := funext fun b => rfl
      rw [hcomp]
      simpa using hperm
    · intro m hm
      rcases List.mem_map.mp hm with ⟨b, hb, rfl⟩
      simp only [mergeBooking]
      apply find?_filter_of_imp
      intro t ht
      have hbid : b.trainerId = JVal.str t.oid := (jval_beq_str_iff _ _).mp ht
      have hpar : parseOidOfJVal b.trainerId = some t.oid := by
        have hs := hall b hb
        rw [hbid] at hs ⊢
        simp only [parseOidOfJVal] at hs ⊢
        by_cases hv : isValidOid t.oid
        · simp [hv]
        · simp [hv] at hs
      have hmm : t.oid ∈ tids := mem_of_mapOptAll htids hb hpar
      simpa using hmm

/-- Witness for C6: the concrete store `c6store` with one resolvable
booking. -/
theorem claim_C6_witness :
    (bookingsByUser c6store "u@v.w").1 = 200 ∧
    ∃ l, (bookingsByUser c6store "u@v.w").2 = some l ∧
      (l.map (·.booking)).Perm (c6store.bookings.filter (fun b =>
        b.userEmail == JVal.str "u@v.w" && b.status == JVal.str "success")) ∧
      ∀ m ∈ l, m.trainerDetails
        = c6store.trainers.find? (fun t => m.booking.trainerId == JVal.str t.oid) :=
  claim_C6_bookings_merge c6store "u@v.w" (by
    simp only [c6store]
    decide)

/-- Counterexample for C6 as stated: one successful booking with a
malformed trainer reference makes the whole query answer a 500 error
with no merged list, instead of a null detail field. -/
theorem claim_C6_cex :
    (bookingsByUser c6badStore "u@v.w").1 = 500 ∧
    (bookingsByUser c6badStore "u@v.w").2 = none := by
  constructor <;> rfl

/-- Sorting a collection does not change membership. -/
theorem mem_sortByKeyDesc {key : α → Nat} {l : List α} {x : α} :
    x ∈ sortByKeyDesc key l ↔ x ∈ l :=
  (List.perm_insertionSort _ _).mem_iff

/-- Every member of a list is on some 6-element page numbered from 1. -/
theorem mem_page6_of_mem {l : List α} {x : α} (hx : x ∈ l) :
    ∃ pg : Nat, x ∈ (l.drop ((pg + 1 - 1) * 6)).take 6 := by
  rcases @exists_page_mem α l x hx 6 (by norm_num) with ⟨pg, h⟩
  refine ⟨pg, ?_⟩
  simpa using h

/-- C4 (amended): every Create whose required fields are present and
non-empty (and, for Users and Subscribers, whose email is not already
present) succeeds — with status 201 for Classes, Users, Testimonials
and Bookings, but a plain 200 for Forum, Reviews, Subscribers and the
trainer-application submission — and the created entity is afterwards
returned by the corresponding List operation (on some page, for the
paginated lists). -/
theorem claim_C4_create_retrievable :
    (∀ (s : Store) (b : ClassBody) (now : Nat) (fid : String),
      b.name.truthy = true → b.image.truthy = true → b.details.truthy = true →
      (createClass s b now fid).1 = 201 ∧
      ∃ pg : Nat, classDocOf b now fid ∈
        (getClassesCore (createClass s b now fid).2 (pg + 1) 6 "").data) ∧
    (∀ (s : Store) (b : ForumBody) (fid : String),
      (createForum s b fid).1 = 200 ∧
      ∃ pg : Nat, forumPostOf b fid ∈
        (forumPageCore (createForum s b fid).2 (pg + 1)).posts) ∧
    (∀ (s : Store) (b : ReviewBody) (now : Nat) (fid : String),
      (createReview s b now fid).1 = 200 ∧
      reviewDocOf b now fid ∈ listReviews (createReview s b now fid).2) ∧
    (∀ (s : Store) (b : UserBody) (fid : String),
      b.email.truthy = true → (∀ d ∈ s.users, (d.email == b.email) = false) →
      (registerUser s b fid).1 = 201 ∧
      regUserDoc b fid ∈ getUsers (registerUser s b fid).2.2) ∧
    (∀ (s : Store) (b : TestimonialBody) (now : Nat) (fid : String),
      b.name.truthy = true → b.review.truthy = true →
      (createTestimonial s b now fid).1 = 201 ∧
      testimonialDocOf b now fid ∈ listTestimonials (createTestimonial s b now fid).2) ∧
    (∀ (s : Store) (name email : JVal) (now : Nat) (fid : String),
      name.truthy = true → email.truthy = true →
      (∀ d ∈ s.subscribers, (d.email == email) = false) →
      (subscribe s name email now fid).1 = 200 ∧
      subscriberDocOf name email now fid ∈
        listSubscribers (subscribe s name email now fid).2) ∧
    (∀ (s : Store) (b : PaymentBody) (now : Nat) (fid : String) (tid : String),
      b.userEmail.truthy = true → b.trainerId.truthy = true →
      b.trainerId = JVal.str tid →
      (createPayment s b now fid).1 = 201 ∧
      bookingDocOf b now fid ∈ bookingsByTrainer (createPayment s b now fid).2 tid) ∧
    (∀ (s : Store) (b : ApplyBody) (now : Nat) (fid : String),
      (applyTrainer s b now fid).1 = 200 ∧
      appliedDoc b now fid ∈ listTrainers (applyTrainer s b now fid).2) := by
  refine ⟨?_, ?_, ?_, ?_, ?_, ?_, ?_, ?_⟩
  · intro s b now fid h1 h2 h3
    refine ⟨by simp [createClass, h1, h2, h3], ?_⟩
    have hmemd : classDocOf b now fid ∈ sortByKeyDesc (·.createdAt)
        ((createClass s b now fid).2.classes.filter
          (fun c => if ("" : String) = "" then true else strContainsCI "" c.name)) := by
      rw [mem_sortByKeyDesc]
      refine List.mem_filter.mpr ⟨?_, by simp⟩
      rw [show (createClass s b now fid).2.classes
          = s.classes ++ [classDocOf b now fid] by simp [createClass, h1, h2, h3]]
      exact List.mem_append_right _ (List.mem_singleton_self _)
    rcases mem_page6_of_mem hmemd with ⟨pg, hpg⟩
    exact ⟨pg, by simpa [getClassesCore] using hpg⟩
  · intro s b fid
    refine ⟨rfl, ?_⟩
    have hmemd : forumPostOf b fid ∈ sortByKeyDesc (·.createdAt)
        (createForum s b fid).2.forum := by
      rw [mem_sortByKeyDesc,
        show (createForum s b fid).2.forum = s.forum ++ [forumPostOf b fid] by
          simp [createForum]]
      exact List.mem_append_right _ (List.mem_singleton_self _)
    rcases mem_page6_of_mem hmemd with ⟨pg, hpg⟩
    exact ⟨pg, by simpa [forumPageCore] using hpg⟩
  · intro s b now fid
    refine ⟨rfl, ?_⟩
    rw [show listReviews (createReview s b now fid).2
        = sortByKeyDesc (·.createdAt) (s.reviews ++ [reviewDocOf b now fid]) by
      simp [listReviews, createReview]]
    rw [mem_sortByKeyDesc]
    exact List.mem_append_right _ (List.mem_singleton_self _)
  · intro s b fid he hno
    have hfind : s.users.find? (fun d => d.email == b.email) = none :=
      List.find?_eq_none.mpr (fun d hd => by simp [hno d hd])
    refine ⟨by simp [registerUser, he, hfind], ?_⟩
    rw [show getUsers (registerUser s b fid).2.2 = s.users ++ [regUserDoc b fid] by
      simp [getUsers, registerUser, he, hfind]]
    exact List.mem_append_right _ (List.mem_singleton_self _)
  · intro s b now fid h1 h2
    refine ⟨by simp [createTestimonial, h1, h2], ?_⟩
    rw [show listTestimonials (createTestimonial s b now fid).2
        = sortByKeyDesc (·.createdAt) (s.testimonials ++ [testimonialDocOf b now fid]) by
      simp [listTestimonials, createTestimonial, h1, h2]]
    rw [mem_sortByKeyDesc]
    exact List.mem_append_right _ (List.mem_singleton_self _)
  · intro s name email now fid h1 h2 hno
    have hfind : s.subscribers.find? (fun d => d.email == email) = none :=
      List.find?_eq_none.mpr (fun d hd => by simp [hno d hd])
    refine ⟨by simp [subscribe, h1, h2, hfind], ?_⟩
    rw [show listSubscribers (subscribe s name email now fid).2
        = sortByKeyDesc (·.createdAt)
          (s.subscribers ++ [subscriberDocOf name email now fid]) by
      simp [listSubscribers, subscribe, h1, h2, hfind]]
    rw [mem_sortByKeyDesc]
    exact List.mem_append_right _ (List.mem_singleton_self _)
  · intro s b now fid tid h1 h2 htid
    refine ⟨by simp [createPayment, h1, h2], ?_⟩
    rw [show bookingsByTrainer (createPayment s b now fid).2 tid
        = (s.bookings ++ [bookingDocOf b now fid]).filter
            (fun d => d.trainerId == JVal.str tid) by
      simp [bookingsByTrainer, createPayment, h1, h2]]
    refine List.mem_filter.mpr
      ⟨List.mem_append_right _ (List.mem_singleton_self _), ?_⟩
    show (bookingDocOf b now fid).trainerId == JVal.str tid
    rw [show (bookingDocOf b now fid).trainerId = b.trainerId from rfl, htid]
    exact jval_beq_str_self tid
  · intro s b now fid
    refine ⟨rfl, ?_⟩
    rw [show listTrainers (applyTrainer s b now fid).2
        = sortByKeyDesc (·.createdAt) (s.trainers ++ [appliedDoc b now fid]) by
      simp [listTrainers, applyTrainer]]
    rw [mem_sortByKeyDesc]
    exact List.mem_append_right _ (List.mem_singleton_self _)

/-- Witness for C4: each Create executed on the empty store with a
concrete valid body. -/
theorem claim_C4_witness :
    ((createClass emptyStore c4class 1 "aaaaaaaaaaaaaaaaaaaaaaaa").1 = 201 ∧
      ∃ pg : Nat, classDocOf c4class 1 "aaaaaaaaaaaaaaaaaaaaaaaa" ∈
        (getClassesCore (createClass emptyStore c4class 1
          "aaaaaaaaaaaaaaaaaaaaaaaa").2 (pg + 1) 6 "").data) ∧
    ((createForum emptyStore c4forum "aaaaaaaaaaaaaaaaaaaaaaaa").1 = 200 ∧
      ∃ pg : Nat, forumPostOf c4forum "aaaaaaaaaaaaaaaaaaaaaaaa" ∈
        (forumPageCore (createForum emptyStore c4forum
          "aaaaaaaaaaaaaaaaaaaaaaaa").2 (pg + 1)).posts) ∧
    ((createReview emptyStore c4review 1 "aaaaaaaaaaaaaaaaaaaaaaaa").1 = 200 ∧
      reviewDocOf c4review 1 "aaaaaaaaaaaaaaaaaaaaaaaa" ∈
        listReviews (createReview emptyStore c4review 1
          "aaaaaaaaaaaaaaaaaaaaaaaa").2) ∧
    ((registerUser emptyStore c4user "aaaaaaaaaaaaaaaaaaaaaaaa").1 = 201 ∧
      regUserDoc c4user "aaaaaaaaaaaaaaaaaaaaaaaa" ∈
        getUsers (registerUser emptyStore c4user "aaaaaaaaaaaaaaaaaaaaaaaa").2.2) ∧
    ((createTestimonial emptyStore c4testimonial 1 "aaaaaaaaaaaaaaaaaaaaaaaa").1
        = 201 ∧
      testimonialDocOf c4testimonial 1 "aaaaaaaaaaaaaaaaaaaaaaaa" ∈
        listTestimonials (createTestimonial emptyStore c4testimonial 1
          "aaaaaaaaaaaaaaaaaaaaaaaa").2) ∧
    ((subscribe emptyStore (JVal.str "N") (JVal.str "s@t.u") 1
        "aaaaaaaaaaaaaaaaaaaaaaaa").1 = 200 ∧
      subscriberDocOf (JVal.str "N") (JVal.str "s@t.u") 1
          "aaaaaaaaaaaaaaaaaaaaaaaa" ∈
        listSubscribers (subscribe emptyStore (JVal.str "N") (JVal.str "s@t.u") 1
          "aaaaaaaaaaaaaaaaaaaaaaaa").2) ∧
    ((createPayment emptyStore c4payment 1 "aaaaaaaaaaaaaaaaaaaaaaaa").1 = 201 ∧
      bookingDocOf c4payment 1 "aaaaaaaaaaaaaaaaaaaaaaaa" ∈
        bookingsByTrainer (createPayment emptyStore c4payment 1
          "aaaaaaaaaaaaaaaaaaaaaaaa").2 "abcabcabcabcabcabcabcabc") ∧
    ((applyTrainer emptyStore c2body 1 "aaaaaaaaaaaaaaaaaaaaaaaa").1 = 200 ∧
      appliedDoc c2body 1 "aaaaaaaaaaaaaaaaaaaaaaaa" ∈
        listTrainers (applyTrainer emptyStore c2body 1
          "aaaaaaaaaaaaaaaaaaaaaaaa").2) :=
  ⟨claim_C4_create_retrievable.1 emptyStore c4class 1 "aaaaaaaaaaaaaaaaaaaaaaaa"
      (by decide) (by decide) (by decide),
   claim_C4_create_retrievable.2.1 emptyStore c4forum "aaaaaaaaaaaaaaaaaaaaaaaa",
   claim_C4_create_retrievable.2.2.1 emptyStore c4review 1
      "aaaaaaaaaaaaaaaaaaaaaaaa",
   claim_C4_create_retrievable.2.2.2.1 emptyStore c4user "aaaaaaaaaaaaaaaaaaaaaaaa"
      (by decide) (by intro d hd; simp [emptyStore] at hd),
   claim_C4_create_retrievable.2.2.2.2.1 emptyStore c4testimonial 1
      "aaaaaaaaaaaaaaaaaaaaaaaa" (by decide) (by decide),
   claim_C4_create_retrievable.2.2.2.2.2.1 emptyStore (JVal.str "N")
      (JVal.str "s@t.u") 1 "aaaaaaaaaaaaaaaaaaaaaaaa" (by decide) (by decide)
      (by intro d hd; simp [emptyStore] at hd),
   claim_C4_create_retrievable.2.2.2.2.2.2.1 emptyStore c4payment 1
      "aaaaaaaaaaaaaaaaaaaaaaaa" "abcabcabcabcabcabcabcabc" (by decide) (by decide)
      rfl,
   claim_C4_create_retrievable.2.2.2.2.2.2.2 emptyStore c2body 1
      "aaaaaaaaaaaaaaaaaaaaaaaa"⟩

/-- Counterexample for C4 as stated: a valid forum-post creation (the
route has no required fields) answers a plain 200, not 201. -/
theorem claim_C4_cex :
    (createForum emptyStore c4forum "aaaaaaaaaaaaaaaaaaaaaaaa").1 ≠ 201 := by
  decide
